import Mathlib

/-!
Shallow embedding of the resume-ranker weighting and matching engine
(`src/models.py`, `src/matching_engine.py`, `src/candidate_processor.py`).

Python floats are modelled as rationals (`ℚ`); pydantic field validation
(`ge`/`le` bounds checked at construction time) is modelled by fallible
constructors returning `Except String _`; the similarity provider
(ChromaDB query results) is modelled as a function from requirement index
to a `QueryResponse` holding the nested `documents` / `distances` /
`metadatas` lists that `match_category` consumes.
-/

namespace ResumeRanker

/-- Constants from `WeightingConstants` in `src/models.py`. -/
def EXPERIENCE_THRESHOLD : ℚ := 5

def CORE_WEIGHT_FACTOR_MAX : ℚ := 6/10

def REQUIRED_MULTIPLIER : ℚ := 3

def NICE_TO_HAVE_MULTIPLIER : ℚ := 1

def TECHNICAL_TOOL_WEIGHT : ℚ := 9/10

def TECHNICAL_SOFT_WEIGHT : ℚ := 1/10

def LEADERSHIP_TOOL_WEIGHT : ℚ := 4/10

def LEADERSHIP_SOFT_WEIGHT : ℚ := 6/10

/-- `SkillType` enum from `src/models.py`. -/
inductive SkillType where
  | core
  | soft
  | tool
deriving DecidableEq, Repr

/-- `RoleType` enum from `src/models.py`. -/
inductive RoleType where
  | technical
  | leadership
deriving DecidableEq, Repr

/-- `MatchQuality` enum from `src/models.py`. -/
inductive MatchQuality where
  | EXCELLENT
  | VERY_GOOD
  | GOOD
  | FAIR
  | POOR
  | VERY_POOR
  | NO_MATCH
deriving DecidableEq, Repr

/-- The `.value` string of each `MatchQuality` member. -/
def MatchQuality.value : MatchQuality → String
  | .EXCELLENT => "Excellent"
  | .VERY_GOOD => "Very Good"
  | .GOOD => "Good"
  | .FAIR => "Fair"
  | .POOR => "Poor"
  | .VERY_POOR => "Very Poor"
  | .NO_MATCH => "No Match"

/-- Numeric rank of a quality band: higher rank means a better band.
Used to state monotonicity of the score classifier. -/
def MatchQuality.rank : MatchQuality → ℕ
  | .NO_MATCH => 0
  | .VERY_POOR => 1
  | .POOR => 2
  | .FAIR => 3
  | .GOOD => 4
  | .VERY_GOOD => 5
  | .EXCELLENT => 6

/-- `JobRequirement` model from `src/models.py` (pydantic guarantees
`weight ≥ 0` at construction; we carry the field as plain data and add the
bound as a hypothesis where a claim needs it). -/
structure JobRequirement where
  description : String
  weight : ℚ := 1
  skill_type : SkillType := .core
  required : Bool := true
deriving DecidableEq, Repr

/-- `Job` model from `src/models.py`. -/
structure Job where
  title : String
  role_type : RoleType := .technical
  years_of_experience : ℚ := 0
  skills : List JobRequirement := []
  experience : List JobRequirement := []
  education : List JobRequirement := []
  certifications : List JobRequirement := []
deriving DecidableEq, Repr

/-- The `skill_type_counts` dictionary built at the start of
`Job.calculate_skill_weights`: number of job skills of each type. -/
def skill_type_counts_of (skills : List JobRequirement) : SkillType → ℕ :=
  fun st => (skills.filter (fun s => decide (s.skill_type = st))).length

/-- The `core_weight_factor` local computed in
`JobRequirement._calculate_weight_with_linear_core_decrease`:
`max(0.0, 0.6 * (1 - years/5))`. -/
def core_weight_factor (job_years_experience : ℚ) : ℚ :=
  max 0 (CORE_WEIGHT_FACTOR_MAX * (1 - job_years_experience / EXPERIENCE_THRESHOLD))

/-- The `role_factors` lookup table (senior branch), with the dictionary
`.get(..., 0.0)` default for a kind absent from the table. -/
def role_factor (rt : RoleType) (st : SkillType) : ℚ :=
  match rt, st with
  | .technical, .tool => TECHNICAL_TOOL_WEIGHT
  | .technical, .soft => TECHNICAL_SOFT_WEIGHT
  | .leadership, .tool => LEADERSHIP_TOOL_WEIGHT
  | .leadership, .soft => LEADERSHIP_SOFT_WEIGHT
  | _, .core => 0

/-- `JobRequirement._calculate_weight_with_linear_core_decrease` from
`src/models.py` lines 200-242. -/
def calculate_weight_with_linear_core_decrease (skill_type : SkillType)
    (job_years_experience : ℚ) (job_role_type : RoleType)
    (skill_type_counts : SkillType → ℕ) : ℚ :=
  let cwf := core_weight_factor job_years_experience
  if skill_type = SkillType.core then
    let core_count := skill_type_counts SkillType.core
    if core_count > 0 then cwf / core_count else 0
  else
    let remaining_weight := 1 - cwf
    if job_years_experience ≥ EXPERIENCE_THRESHOLD then
      let factor := role_factor job_role_type skill_type
      let skill_count := skill_type_counts skill_type
      if skill_count > 0 then remaining_weight * factor / skill_count else 0
    else
      let other_count := skill_type_counts SkillType.soft + skill_type_counts SkillType.tool
      if other_count > 0 then remaining_weight / other_count else 0

/-- The first pass of `Job.calculate_skill_weights`: the list of
unnormalized weights `base_weight * type_weight * requirement_multiplier`,
one per job skill, in order. -/
def Job.unnormalized_skill_weights (job : Job) : List ℚ :=
  job.skills.map (fun job_skill =>
    let type_weight := calculate_weight_with_linear_core_decrease
      job_skill.skill_type job.years_of_experience job.role_type
      (skill_type_counts_of job.skills)
    let requirement_multiplier :=
      if job_skill.required then REQUIRED_MULTIPLIER else NICE_TO_HAVE_MULTIPLIER
    job_skill.weight * type_weight * requirement_multiplier)

/-- `Job.calculate_skill_weights` from `src/models.py` lines 270-315. -/
def Job.calculate_skill_weights (job : Job) : List ℚ :=
  if job.skills.isEmpty then []
  else
    let unnormalized_weights := job.unnormalized_skill_weights
    let total_unnormalized_weight := unnormalized_weights.sum
    if total_unnormalized_weight = 0 then
      List.replicate job.skills.length (1 / (job.skills.length : ℚ))
    else
      let normalization_factor := 1 / total_unnormalized_weight
      unnormalized_weights.map (fun weight => weight * normalization_factor)

/-- `AttributeMatch.get_match_quality_from_score` from `src/models.py`
lines 367-382. -/
def get_match_quality_from_score (score : ℚ) : MatchQuality :=
  if score ≥ 9/10 then .EXCELLENT
  else if score ≥ 8/10 then .VERY_GOOD
  else if score ≥ 7/10 then .GOOD
  else if score ≥ 6/10 then .FAIR
  else if score ≥ 4/10 then .POOR
  else if score > 0 then .VERY_POOR
  else .NO_MATCH

/-- Concrete job from the spec's first concrete scenario: two skills
`[{CORE, required, weight=1.0}, {TOOL, required, weight=1.0}]`,
`yearsExperience=0`, `roleType=TECHNICAL`. -/
def c4_job : Job :=
  { title := "t", role_type := .technical, years_of_experience := 0,
    skills := [{ description := "s1", weight := 1, skill_type := .core, required := true },
               { description := "s2", weight := 1, skill_type := .tool, required := true }] }

/-- `AttributeMatch` model from `src/models.py` lines 352-365. Pydantic
validates `similarity` and `final_score` to [0,1] at construction (see
`mkAttributeMatch`); plain mutation of a field afterwards is NOT
re-validated (pydantic `validate_assignment` is off), which the second
pass of `match_category` relies on. -/
structure AttributeMatch where
  requirement : String
  matched_item : Option String := none
  similarity : ℚ := 0
  proficiency_score : Option ℤ := none
  final_score : ℚ := 0
  match_quality : MatchQuality := .NO_MATCH
deriving DecidableEq, Repr

/-- `CategoryMatch` model from `src/models.py` lines 390-398. -/
structure CategoryMatch where
  category : String
  overall_score : ℚ := 0
  matches' : List AttributeMatch := []
deriving DecidableEq, Repr

/-- `CandidateEvaluation` model from `src/models.py` lines 401-409. -/
structure CandidateEvaluation where
  candidate_name : String
  job_title : String
  overall_score : ℚ := 0
  category_results : List CategoryMatch := []
deriving DecidableEq, Repr

/-- Validating constructor for `AttributeMatch`: pydantic rejects a
`similarity` or `final_score` outside [0,1] with a `ValidationError`. -/
def mkAttributeMatch (requirement : String) (matched_item : Option String)
    (similarity : ℚ) (proficiency_score : Option ℤ) (final_score : ℚ)
    (match_quality : MatchQuality) : Except String AttributeMatch :=
  if 0 ≤ similarity ∧ similarity ≤ 1 ∧ 0 ≤ final_score ∧ final_score ≤ 1 then
    .ok ⟨requirement, matched_item, similarity, proficiency_score, final_score, match_quality⟩
  else .error "AttributeMatch validation error"

/-- Validating constructor for `CategoryMatch`: pydantic rejects an
`overall_score` outside [0,1]. -/
def mkCategoryMatch (category : String) (overall_score : ℚ)
    (matches' : List AttributeMatch) : Except String CategoryMatch :=
  if 0 ≤ overall_score ∧ overall_score ≤ 1 then
    .ok ⟨category, overall_score, matches'⟩
  else .error "CategoryMatch validation error"

/-- Validating constructor for `CandidateEvaluation`: pydantic rejects an
`overall_score` outside [0,1]. -/
def mkCandidateEvaluation (candidate_name : String) (job_title : String)
    (overall_score : ℚ) (category_results : List CategoryMatch) :
    Except String CandidateEvaluation :=
  if 0 ≤ overall_score ∧ overall_score ≤ 1 then
    .ok ⟨candidate_name, job_title, overall_score, category_results⟩
  else .error "CandidateEvaluation validation error"

/-- The only field of a stored candidate metadata dictionary that
`match_category` consults: the optional `skill_score` proficiency entry.
An absent entry (or the empty dictionary used for unmatched requirements)
is `none`. -/
structure SkillMetadata where
  skill_score : Option ℤ := none
deriving DecidableEq, Repr

/-- One ChromaDB query result as consumed by `match_category`
(`src/matching_engine.py` lines 51-65): nested per-query lists of
documents, distances, and metadata dictionaries. -/
structure QueryResponse where
  documents : List (List String) := []
  distances : List (List ℚ) := []
  metadatas : List (List SkillMetadata) := []
deriving DecidableEq, Repr

/-- The guard and extraction on lines 58-60 of `src/matching_engine.py`:
`if results["documents"] and results["documents"][0]:` followed by
`documents[0][0]` / `distances[0][0]`.  Returns the best document and its
distance, or `none` when no match was found. -/
def first_hit (resp : QueryResponse) : Option (String × ℚ) :=
  match resp.documents with
  | (best :: _) :: _ => some (best, (resp.distances.headD []).headD 0)
  | _ => none

/-- Lines 64-65 of `src/matching_engine.py`: the first metadata dictionary
of the query result, defaulting to the empty dictionary. -/
def first_metadata (resp : QueryResponse) : SkillMetadata :=
  (resp.metadatas.headD []).headD { skill_score := none }

/-- Python truthiness of `match.matched_item` (line 117 of
`src/matching_engine.py`): `None` and the empty string are falsy. -/
def truthy : Option String → Bool
  | some s => !(s == "")
  | none => false

/-- One iteration of the first pass of `match_category`
(`src/matching_engine.py` lines 49-105) for a single requirement.
Returns the `AttributeMatch`, the entry appended to
`candidate_skills_metadata` (if any), and the entry appended to
`weighted_scores` (if any). -/
def step1 (category : String) (req : JobRequirement) (resp : QueryResponse) :
    Except String (AttributeMatch × Option SkillMetadata × Option ℚ) :=
  match first_hit resp with
  | some (best_match, best_distance) =>
    let semantic_similarity := max 0 (1 - best_distance)
    let skill_metadata := first_metadata resp
    if category = "skills" then
      match mkAttributeMatch req.description (some best_match) semantic_similarity
          (some (skill_metadata.skill_score.getD 3)) 0 .NO_MATCH with
      | .error e => .error e
      | .ok m => .ok (m, some skill_metadata, none)
    else
      let final_score := semantic_similarity * req.weight
      match mkAttributeMatch req.description (some best_match) semantic_similarity none
          final_score (get_match_quality_from_score final_score) with
      | .error e => .error e
      | .ok m => .ok (m, none, some final_score)
  | none =>
    match mkAttributeMatch req.description none 0 none 0 .NO_MATCH with
    | .error e => .error e
    | .ok m =>
      .ok (m, if category = "skills" then some { skill_score := none } else none, some 0)

/-- The first pass of `match_category`: iterate `step1` over the
requirements, the `i`-th requirement paired with the provider's response
to its query (`responses i`).  Accumulates the `matches`,
`candidate_skills_metadata` and `weighted_scores` lists in order; a
pydantic validation error aborts the whole call, as in Python. -/
def pass1 (category : String) (responses : ℕ → QueryResponse) :
    List JobRequirement → ℕ →
    Except String (List AttributeMatch × List SkillMetadata × List ℚ)
  | [], _ => .ok ([], [], [])
  | req :: rest, i =>
    match step1 category req (responses i) with
    | .error e => .error e
    | .ok (m, metaOpt, wOpt) =>
      match pass1 category responses rest (i + 1) with
      | .error e => .error e
      | .ok (ms, metas, ws) =>
        .ok (m :: ms, metaOpt.elim metas (· :: metas), wOpt.elim ws (· :: ws))

/-- The second pass of `match_category` for the skills category
(`src/matching_engine.py` lines 107-133): walk the matches paired with
their stored metadata, and for every truthy `matched_item` overwrite the
final score with `(skill_score/5) * similarity * job_skill_weight[i]`
(weight 0 beyond the end of the weight vector) and re-derive the quality;
accumulate `total_weighted_score`.  Field mutation bypasses pydantic
validation, exactly as in the source. -/
def pass2 (skill_weights : List ℚ) :
    List (AttributeMatch × SkillMetadata) → ℕ → List AttributeMatch × ℚ
  | [], _ => ([], 0)
  | (m, meta) :: rest, i =>
    let r := pass2 skill_weights rest (i + 1)
    if truthy m.matched_item then
      let candidate_skill_score : ℚ := ((meta.skill_score.getD 3 : ℤ) : ℚ) / 5
      let job_skill_weight := skill_weights.getD i 0
      let weighted_score := candidate_skill_score * m.similarity * job_skill_weight
      ({ m with final_score := weighted_score,
                match_quality := get_match_quality_from_score weighted_score } :: r.1,
       r.2 + weighted_score)
    else (m :: r.1, r.2)

/-- Line 139 of `src/matching_engine.py`: the non-skills overall score is
the average of the collected weighted scores, 0 when there are none. -/
def averageScore (weighted_scores : List ℚ) : ℚ :=
  if weighted_scores.isEmpty then 0 else weighted_scores.sum / weighted_scores.length

/-- `MatchingEngine.match_category` from `src/matching_engine.py` lines
27-145.  `responses i` is the similarity provider's answer to the query
for the `i`-th requirement (the provider is queried per requirement with
`n_results=3`; only the nearest result is consumed). -/
def match_category (job_requirements : List JobRequirement)
    (responses : ℕ → QueryResponse) (candidate_name : String)
    (category : String) (job : Option Job) : Except String CategoryMatch :=
  if job_requirements.isEmpty then
    mkCategoryMatch category 0 []
  else
    match pass1 category responses job_requirements 0 with
    | .error e => .error e
    | .ok (matches', candidate_skills_metadata, weighted_scores) =>
      match job with
      | some j =>
        if category = "skills" then
          let skill_weights := j.calculate_skill_weights
          let pr := pass2 skill_weights (matches'.zip candidate_skills_metadata) 0
          mkCategoryMatch category (min 1 pr.2) pr.1
        else
          mkCategoryMatch category (averageScore weighted_scores) matches'
      | none => mkCategoryMatch category (averageScore weighted_scores) matches'

/-- The update applied by `pass2` to a truthy match at position `i`. -/
def pass2_update (skill_weights : List ℚ) (i : ℕ)
    (p : AttributeMatch × SkillMetadata) : AttributeMatch :=
  { p.1 with
    final_score :=
      ((p.2.skill_score.getD 3 : ℤ) : ℚ) / 5 * p.1.similarity * skill_weights.getD i 0,
    match_quality := get_match_quality_from_score
      (((p.2.skill_score.getD 3 : ℤ) : ℚ) / 5 * p.1.similarity * skill_weights.getD i 0) }

/-- Fixture requirement used in the concrete counterexamples. -/
def pyReq : JobRequirement := { description := "python" }

/-- A provider that finds nothing for any query. -/
def emptyProvider : ℕ → QueryResponse := fun _ => {}

/-- Fixture provider for the witness runs with one matched skill:
document "py" at distance 1/2, metadata without a `skill_score` entry. -/
def hitProvider : ℕ → QueryResponse := fun _ =>
  { documents := [["py"]], distances := [[1/2]], metadatas := [[{ skill_score := none }]] }

/-- Fixture job with a single core required skill. -/
def oneSkillJob : Job := { title := "j", skills := [pyReq] }

/-- The category result produced by the concrete matched witness run. -/
def hitResult : CategoryMatch :=
  { category := "skills", overall_score := 3/10,
    matches' := [{ requirement := "python", matched_item := some "py",
                   similarity := 1/2, proficiency_score := some 3,
                   final_score := 3/10, match_quality := .VERY_POOR }] }

/-- Round-half-to-even to an integer, as Python's builtin `round`. -/
def round_half_even (q : ℚ) : ℤ :=
  if Int.fract q < 1/2 then ⌊q⌋
  else if 1/2 < Int.fract q then ⌊q⌋ + 1
  else if ⌊q⌋ % 2 = 0 then ⌊q⌋ else ⌊q⌋ + 1

/-- Python's `round(x, 4)`: round to 4 decimal places, ties to even. -/
def python_round4 (q : ℚ) : ℚ := (round_half_even (q * 10000) : ℚ) / 10000

/-- One entry of the list returned by `get_top_matches_by_category`
(`src/candidate_processor.py` lines 140-149): the dictionary with the
requirement, matched item, rounded score and quality string. -/
structure TopMatchEntry where
  requirement : String
  matched_item : Option String
  score : ℚ
  quality : String
deriving DecidableEq, Repr

/-- The dictionary built for one match by `get_top_matches_by_category`. -/
def to_top_match_entry (m : AttributeMatch) : TopMatchEntry :=
  { requirement := m.requirement, matched_item := m.matched_item,
    score := python_round4 m.final_score, quality := m.match_quality.value }

/-- `CandidateProcessor.get_top_matches_by_category` from
`src/candidate_processor.py` lines 124-151: find the first category result
with the requested name, sort its matches by `final_score` descending
(Python's sort is stable; `insertionSort` with this relation models it),
take the first `top_n`, and keep only those with a non-null matched item. -/
def get_top_matches_by_category (evaluation : CandidateEvaluation) (category : String)
    (top_n : ℕ) : List TopMatchEntry :=
  match evaluation.category_results.find? (fun cr => cr.category == category) with
  | some category_result =>
    ((((category_result.matches'.insertionSort
          (fun a b => b.final_score ≤ a.final_score)).take top_n).filter
        (fun m => m.matched_item.isSome)).map to_top_match_entry)
  | none => []

/-- Fixture evaluation for the C2 counterexample: a skills category result
holding an unmatched entry (null matched item, score 0) followed by a
matched entry with score 0. -/
def c2_eval : CandidateEvaluation :=
  { candidate_name := "alice", job_title := "j", overall_score := 0,
    category_results :=
      [{ category := "skills", overall_score := 0,
         matches' := [{ requirement := "r1" },
                      { requirement := "r2", matched_item := some "X" }] }] }

/-- `CandidateProcessor.evaluate_candidate` from
`src/candidate_processor.py` lines 71-109: run `match_category` for each
non-empty category of the job in the fixed order skills, experience,
education, certifications; the overall score is the average of the
category scores (0 if no category was evaluated).  `responses c cat i` is
the provider's answer for candidate `c`, category `cat`, requirement `i`;
a failure in any category aborts the evaluation, as an exception would. -/
def evaluate_candidate (responses : String → String → ℕ → QueryResponse) (job : Job)
    (candidate_name : String) : Except String CandidateEvaluation :=
  match ([("skills", job.skills), ("experience", job.experience),
          ("education", job.education),
          ("certifications", job.certifications)].filter
            (fun p => !p.2.isEmpty)).mapM
      (fun p => match_category p.2 (responses candidate_name p.1) candidate_name p.1
        (some job)) with
  | .error e => .error e
  | .ok category_results =>
    mkCandidateEvaluation candidate_name job.title
      (if category_results.isEmpty then 0
       else (category_results.map (fun r => r.overall_score)).sum / category_results.length)
      category_results

/-- `CandidateProcessor.evaluate_candidates` from
`src/candidate_processor.py` lines 111-122: evaluate every candidate, then
sort by `overall_score` highest first (Python's `list.sort` with
`reverse=True` is a stable descending sort, modelled by `insertionSort`
with this relation). -/
def evaluate_candidates (responses : String → String → ℕ → QueryResponse) (job : Job)
    (candidate_names : List String) : Except String (List CandidateEvaluation) :=
  match candidate_names.mapM (evaluate_candidate responses job) with
  | .error e => .error e
  | .ok evaluations =>
    .ok (evaluations.insertionSort (fun a b => b.overall_score ≤ a.overall_score))

/-- Fixture job with no requirements at all. -/
def emptyJob : Job := { title := "j0" }

/-- Fixture provider for multi-candidate runs that finds nothing. -/
def trivialProvider : String → String → ℕ → QueryResponse := fun _ _ _ => {}

/-! ## Theorems -/


/-- Claim C3: for every job with `yearsExperience ≥ 0`,
`calculate_skill_weights` returns a list of the same length and order as
the job's skills whose sum is exactly 1 whenever the skill list is
non-empty (in the exact-rational model the floating tolerance 1e-6 is met
with exact equality), including the all-zero-unnormalized-weight case,
which falls back to the equal weight `1/n`; for an empty skill list it
returns the empty list. -/
theorem claim_C3_weight_normalization (job : Job) (hy : 0 ≤ job.years_of_experience) :
    job.calculate_skill_weights.length = job.skills.length ∧
    (job.skills ≠ [] → job.calculate_skill_weights.sum = 1) ∧
    (job.skills = [] → job.calculate_skill_weights = []) ∧
    (job.skills ≠ [] → (∀ w ∈ job.unnormalized_skill_weights, w = 0) →
      job.calculate_skill_weights =
        List.replicate job.skills.length (1 / (job.skills.length : ℚ))) := by
  have key : job.calculate_skill_weights =
      if job.skills.isEmpty then ([] : List ℚ)
      else if job.unnormalized_skill_weights.sum = 0 then
        List.replicate job.skills.length (1 / (job.skills.length : ℚ))
      else job.unnormalized_skill_weights.map
        (fun w => w * (1 / job.unnormalized_skill_weights.sum)) := rfl
  clear hy
  by_cases he : job.skills.isEmpty
  · have h0 : job.skills = [] := List.isEmpty_iff.mp he
    rw [key, if_pos he]
    exact ⟨by simp [h0], fun h => absurd h0 h, fun _ => rfl, fun h => absurd h0 h⟩
  · have h0 : job.skills ≠ [] := fun h => he (by simp [h])
    have hn : job.skills.length ≠ 0 := fun h => h0 (List.length_eq_zero.mp h)
    have hnq : (job.skills.length : ℚ) ≠ 0 := Nat.cast_ne_zero.mpr hn
    have hlen : job.unnormalized_skill_weights.length = job.skills.length :=
      List.length_map _ _
    rw [key, if_neg he]
    by_cases ht : job.unnormalized_skill_weights.sum = 0
    · rw [if_pos ht]
      refine ⟨List.length_replicate _ _, fun _ => ?_, fun h => absurd h h0, fun _ _ => rfl⟩
      rw [List.sum_replicate, nsmul_eq_mul]
      exact mul_one_div_cancel hnq
    · rw [if_neg ht]
      refine ⟨by rw [List.length_map, hlen], fun _ => ?_, fun h => absurd h h0,
        fun _ hall => absurd (List.sum_eq_zero hall) ht⟩
      have hs : (job.unnormalized_skill_weights.map
          (fun w => w * (1 / job.unnormalized_skill_weights.sum))).sum =
          job.unnormalized_skill_weights.sum * (1 / job.unnormalized_skill_weights.sum) := by
        simpa using List.sum_map_mul_right job.unnormalized_skill_weights id
          (1 / job.unnormalized_skill_weights.sum)
      rw [hs]
      exact mul_one_div_cancel ht

/-- Witness for C3: at the concrete job `c4_job` (two skills, zero years of
experience) the computed weights sum to exactly 1. -/
theorem claim_C3_witness : c4_job.calculate_skill_weights.sum = 1 :=
  (claim_C3_weight_normalization c4_job (by norm_num [c4_job])).2.1 (by simp [c4_job])

/-- Claim C4: on the spec's concrete scenario (`c4_job`), the core weight
factor is 0.6, the unnormalized weights are 1.8 (CORE) and 1.2 (TOOL,
junior equal-split branch), and the normalized weights are exactly
[0.6, 0.4]. -/
theorem claim_C4_concrete_scenario :
    core_weight_factor 0 = 6/10 ∧
    c4_job.unnormalized_skill_weights = [18/10, 12/10] ∧
    c4_job.calculate_skill_weights = [6/10, 4/10] := by
  refine ⟨?_, ?_, ?_⟩
  · simp [core_weight_factor, CORE_WEIGHT_FACTOR_MAX, EXPERIENCE_THRESHOLD]
    norm_num
  · simp [c4_job, Job.unnormalized_skill_weights, calculate_weight_with_linear_core_decrease,
      core_weight_factor, skill_type_counts_of, role_factor,
      CORE_WEIGHT_FACTOR_MAX, EXPERIENCE_THRESHOLD, REQUIRED_MULTIPLIER, NICE_TO_HAVE_MULTIPLIER]
    norm_num
  · simp [c4_job, Job.calculate_skill_weights, Job.unnormalized_skill_weights,
      calculate_weight_with_linear_core_decrease,
      core_weight_factor, skill_type_counts_of, role_factor,
      CORE_WEIGHT_FACTOR_MAX, EXPERIENCE_THRESHOLD, REQUIRED_MULTIPLIER, NICE_TO_HAVE_MULTIPLIER]
    norm_num

set_option maxHeartbeats 1600000 in
/-- Claim C5: the score-to-quality classifier obeys exactly the
inclusive-lower-bound thresholds (boundary values map to the higher band)
on [0,1], and is monotonic non-decreasing: a lower score is never
classified into a higher band. -/
theorem claim_C5_classifier :
    (∀ s : ℚ, 0 ≤ s → s ≤ 1 →
      ((get_match_quality_from_score s = .EXCELLENT ↔ 9/10 ≤ s) ∧
       (get_match_quality_from_score s = .VERY_GOOD ↔ 8/10 ≤ s ∧ s < 9/10) ∧
       (get_match_quality_from_score s = .GOOD ↔ 7/10 ≤ s ∧ s < 8/10) ∧
       (get_match_quality_from_score s = .FAIR ↔ 6/10 ≤ s ∧ s < 7/10) ∧
       (get_match_quality_from_score s = .POOR ↔ 4/10 ≤ s ∧ s < 6/10) ∧
       (get_match_quality_from_score s = .VERY_POOR ↔ 0 < s ∧ s < 4/10) ∧
       (get_match_quality_from_score s = .NO_MATCH ↔ s = 0))) ∧
    (∀ s1 s2 : ℚ, 0 ≤ s1 → s1 ≤ s2 → s2 ≤ 1 →
      (get_match_quality_from_score s1).rank ≤ (get_match_quality_from_score s2).rank) := by
  constructor
  · intro s h0 h1
    unfold get_match_quality_from_score
    split_ifs with h2 h3 h4 h5 h6 h7 <;>
      refine ⟨?_, ?_, ?_, ?_, ?_, ?_, ?_⟩ <;>
      constructor <;> intro hh <;> first
        | rfl
        | linarith
        | (constructor <;> linarith)
        | (exact absurd hh (by simp))
  · intro s1 s2 h0 h12 h2
    unfold get_match_quality_from_score
    split_ifs <;> first
      | decide
      | linarith

/-- Witness for C5: the boundary score 0.9 classifies as EXCELLENT, and a
pair of ordered scores yields ordered bands. -/
theorem claim_C5_witness :
    get_match_quality_from_score (9/10) = .EXCELLENT ∧
    (get_match_quality_from_score (1/2)).rank ≤ (get_match_quality_from_score (3/4)).rank :=
  ⟨((claim_C5_classifier.1 (9/10) (by norm_num) (by norm_num)).1).mpr (by norm_num),
   claim_C5_classifier.2 (1/2) (3/4) (by norm_num) (by norm_num) (by norm_num)⟩

/-- Unpacking a successful `mkAttributeMatch`. -/
theorem mkAttributeMatch_ok {r mi s p f q m} (h : mkAttributeMatch r mi s p f q = .ok m) :
    m = ⟨r, mi, s, p, f, q⟩ ∧ 0 ≤ s ∧ s ≤ 1 ∧ 0 ≤ f ∧ f ≤ 1 := by
  unfold mkAttributeMatch at h
  split_ifs at h with hb
  · injection h with h
    exact ⟨h.symm, hb.1, hb.2.1, hb.2.2.1, hb.2.2.2⟩

/-- Unpacking a successful `mkCategoryMatch`. -/
theorem mkCategoryMatch_ok {c o ms cm} (h : mkCategoryMatch c o ms = .ok cm) :
    cm = ⟨c, o, ms⟩ ∧ 0 ≤ o ∧ o ≤ 1 := by
  unfold mkCategoryMatch at h
  split_ifs at h with hb
  · injection h with h
    exact ⟨h.symm, hb.1, hb.2⟩

/-- `step1` on a response with no hit produces the all-default no-match
entry, the empty metadata dictionary (skills only), and weighted score 0. -/
theorem step1_no_hit (category : String) (req : JobRequirement) (resp : QueryResponse)
    (h : first_hit resp = none) :
    step1 category req resp =
      .ok ({ requirement := req.description },
           if category = "skills" then some { skill_score := none } else none,
           some 0) := by
  unfold step1 mkAttributeMatch
  rw [h]
  norm_num

/-- `step1` on a hit in the skills category. -/
theorem step1_hit_skills (req : JobRequirement) (resp : QueryResponse) (doc : String)
    (dist : ℚ) (h : first_hit resp = some (doc, dist)) :
    step1 "skills" req resp =
      match mkAttributeMatch req.description (some doc) (max 0 (1 - dist))
          (some ((first_metadata resp).skill_score.getD 3)) 0 .NO_MATCH with
      | .error e => .error e
      | .ok m => .ok (m, some (first_metadata resp), none) := by
  unfold step1
  rw [h]
  simp

/-- `step1` on a hit in a non-skills category. -/
theorem step1_hit_other (category : String) (req : JobRequirement) (resp : QueryResponse)
    (doc : String) (dist : ℚ) (h : first_hit resp = some (doc, dist))
    (hc : category ≠ "skills") :
    step1 category req resp =
      match mkAttributeMatch req.description (some doc) (max 0 (1 - dist)) none
          (max 0 (1 - dist) * req.weight)
          (get_match_quality_from_score (max 0 (1 - dist) * req.weight)) with
      | .error e => .error e
      | .ok m => .ok (m, none, some (max 0 (1 - dist) * req.weight)) := by
  unfold step1
  rw [h]
  simp only []
  rw [if_neg hc]

/-- Shape of a successful `step1`: validated bounds on the produced match,
the skills-category placeholder invariants, the no-match invariant, and
the bookkeeping of the two optional outputs. -/
theorem step1_shape {category : String} {req : JobRequirement} {resp : QueryResponse}
    {m : AttributeMatch} {mo : Option SkillMetadata} {wo : Option ℚ}
    (h : step1 category req resp = .ok (m, mo, wo)) :
    (0 ≤ m.similarity ∧ m.similarity ≤ 1 ∧ 0 ≤ m.final_score ∧ m.final_score ≤ 1) ∧
    (m.matched_item = none → m.final_score = 0 ∧ m.match_quality = .NO_MATCH) ∧
    (category = "skills" →
      (m.final_score = 0 ∧ m.match_quality = .NO_MATCH ∧ ∃ meta, mo = some meta) ∧
      (wo = none ∨ wo = some 0)) ∧
    (category ≠ "skills" → mo = none ∧ ∃ w, wo = some w) := by
  cases hf : first_hit resp with
  | none =>
    rw [step1_no_hit category req resp hf] at h
    injection h with h
    simp only [Prod.mk.injEq] at h
    obtain ⟨h1, h2, h3⟩ := h
    subst h1; subst h2; subst h3
    refine ⟨by norm_num, fun _ => ⟨rfl, rfl⟩,
      fun hc => ⟨⟨rfl, rfl, ?_⟩, Or.inr rfl⟩, fun hc => ⟨?_, 0, rfl⟩⟩
    · exact ⟨{ skill_score := none }, by rw [if_pos hc]⟩
    · rw [if_neg hc]
  | some hit =>
    obtain ⟨doc, dist⟩ := hit
    by_cases hc : category = "skills"
    · subst hc
      rw [step1_hit_skills req resp doc dist hf] at h
      cases hm : mkAttributeMatch req.description (some doc) (max 0 (1 - dist))
          (some ((first_metadata resp).skill_score.getD 3)) 0 .NO_MATCH with
      | error e => rw [hm] at h; cases h
      | ok m0 =>
        rw [hm] at h
        injection h with h
        simp only [Prod.mk.injEq] at h
        obtain ⟨h1, h2, h3⟩ := h
        subst h1; subst h2; subst h3
        obtain ⟨rfl, hs0, hs1, _, _⟩ := mkAttributeMatch_ok hm
        refine ⟨⟨hs0, hs1, by norm_num, by norm_num⟩, ?_, ?_, ?_⟩
        · intro hn; simp at hn
        · intro _; exact ⟨⟨rfl, rfl, first_metadata resp, rfl⟩, Or.inl rfl⟩
        · intro hcc; exact absurd rfl hcc
    · rw [step1_hit_other category req resp doc dist hf hc] at h
      cases hm : mkAttributeMatch req.description (some doc) (max 0 (1 - dist)) none
          (max 0 (1 - dist) * req.weight)
          (get_match_quality_from_score (max 0 (1 - dist) * req.weight)) with
      | error e => rw [hm] at h; cases h
      | ok m0 =>
        rw [hm] at h
        injection h with h
        simp only [Prod.mk.injEq] at h
        obtain ⟨h1, h2, h3⟩ := h
        subst h1; subst h2; subst h3
        obtain ⟨rfl, hs0, hs1, hf0, hf1⟩ := mkAttributeMatch_ok hm
        refine ⟨⟨hs0, hs1, hf0, hf1⟩, ?_, ?_, ?_⟩
        · intro hn; simp at hn
        · intro hcc; exact absurd hcc hc
        · intro _; exact ⟨rfl, _, rfl⟩

/-- Invariants of the first pass of `match_category`, by induction over
the requirement list: lengths, the no-match invariant, the skills
placeholder invariant (every final score still 0 and quality NO_MATCH,
every collected weighted score 0), and the validated bounds. -/
theorem pass1_invariant (category : String) (responses : ℕ → QueryResponse)
    (reqs : List JobRequirement) :
    ∀ (i : ℕ) (ms : List AttributeMatch) (metas : List SkillMetadata) (ws : List ℚ),
      pass1 category responses reqs i = .ok (ms, metas, ws) →
      ms.length = reqs.length ∧
      (category = "skills" → metas.length = reqs.length) ∧
      (∀ m ∈ ms, m.matched_item = none → m.final_score = 0 ∧ m.match_quality = .NO_MATCH) ∧
      (category = "skills" → ∀ m ∈ ms, m.final_score = 0 ∧ m.match_quality = .NO_MATCH) ∧
      (category = "skills" → ∀ w ∈ ws, w = 0) ∧
      (∀ m ∈ ms, 0 ≤ m.final_score ∧ m.final_score ≤ 1) := by
  induction reqs with
  | nil =>
    intro i ms metas ws h
    unfold pass1 at h
    injection h with h
    simp only [Prod.mk.injEq] at h
    obtain ⟨h1, h2, h3⟩ := h
    subst h1; subst h2; subst h3
    simp
  | cons req rest ih =>
    intro i ms metas ws h
    unfold pass1 at h
    cases hs : step1 category req (responses i) with
    | error e => rw [hs] at h; cases h
    | ok t =>
      obtain ⟨m, mo, wo⟩ := t
      rw [hs] at h
      cases hp : pass1 category responses rest (i + 1) with
      | error e => rw [hp] at h; cases h
      | ok t2 =>
        obtain ⟨ms', metas', ws'⟩ := t2
        rw [hp] at h
        injection h with h
        simp only [Prod.mk.injEq] at h
        obtain ⟨h1, h2, h3⟩ := h
        subst h1; subst h2; subst h3
        obtain ⟨hbounds, hnone, hskills, hother⟩ := step1_shape hs
        obtain ⟨ih1, ih2, ih3, ih4, ih5, ih6⟩ := ih (i + 1) ms' metas' ws' hp
        refine ⟨by simp [ih1], ?_, ?_, ?_, ?_, ?_⟩
        · intro hc
          obtain ⟨⟨_, _, meta, rfl⟩, _⟩ := hskills hc
          simp [Option.elim, ih2 hc]
        · intro x hx hxnone
          rcases List.mem_cons.mp hx with rfl | hx'
          · exact hnone hxnone
          · exact ih3 x hx' hxnone
        · intro hc x hx
          rcases List.mem_cons.mp hx with rfl | hx'
          · exact ⟨(hskills hc).1.1, (hskills hc).1.2.1⟩
          · exact ih4 hc x hx'
        · intro hc w hw
          rcases (hskills hc).2 with rfl | rfl
          · exact ih5 hc w hw
          · rcases List.mem_cons.mp hw with rfl | hw'
            · rfl
            · exact ih5 hc w hw'
        · intro x hx
          rcases List.mem_cons.mp hx with rfl | hx'
          · exact ⟨hbounds.2.2.1, hbounds.2.2.2⟩
          · exact ih6 x hx'

/-- `pass2` elementwise: the `i`-th output match is the input match,
updated when its `matched_item` is truthy (with the weight taken at the
absolute index `s + i`). -/
theorem pass2_get (skill_weights : List ℚ)
    (pairs : List (AttributeMatch × SkillMetadata)) :
    ∀ (s i : ℕ) (p : AttributeMatch × SkillMetadata), pairs[i]? = some p →
      (pass2 skill_weights pairs s).1[i]? =
        some (if truthy p.1.matched_item then pass2_update skill_weights (s + i) p
              else p.1) := by
  induction pairs with
  | nil => intro s i p hp; simp at hp
  | cons q rest ih =>
    intro s i p hp
    cases i with
    | zero =>
      simp only [List.getElem?_cons_zero, Option.some.injEq] at hp
      subst hp
      obtain ⟨m, meta⟩ := q
      unfold pass2
      by_cases ht : truthy m.matched_item
      · simp [ht, pass2_update]
      · simp [ht]
    | succ j =>
      simp only [List.getElem?_cons_succ] at hp
      obtain ⟨m, meta⟩ := q
      unfold pass2
      by_cases ht : truthy m.matched_item
      · simpa [ht, Nat.add_assoc, Nat.add_comm 1 j] using ih (s + 1) j p hp
      · simpa [ht, Nat.add_assoc, Nat.add_comm 1 j] using ih (s + 1) j p hp

/-- `pass2` keeps the no-match invariant: entries without a matched item
are passed through unchanged. -/
theorem pass2_preserves_none (skill_weights : List ℚ)
    (pairs : List (AttributeMatch × SkillMetadata)) :
    ∀ i : ℕ,
      (∀ p ∈ pairs, p.1.matched_item = none →
        p.1.final_score = 0 ∧ p.1.match_quality = .NO_MATCH) →
      ∀ m ∈ (pass2 skill_weights pairs i).1,
        m.matched_item = none → m.final_score = 0 ∧ m.match_quality = .NO_MATCH := by
  induction pairs with
  | nil => intro i _ m hm; simp [pass2] at hm
  | cons q rest ih =>
    intro i hinv m hm
    obtain ⟨m0, meta⟩ := q
    unfold pass2 at hm
    by_cases ht : truthy m0.matched_item
    · rw [if_pos ht] at hm
      rcases List.mem_cons.mp hm with rfl | hm'
      · intro hnone
        exfalso
        have h2 : m0.matched_item = none := hnone
        rw [h2] at ht
        simp [truthy] at ht
      · exact ih (i + 1) (fun p hp => hinv p (List.mem_cons_of_mem _ hp)) m hm'
    · rw [if_neg ht] at hm
      rcases List.mem_cons.mp hm with rfl | hm'
      · exact hinv (m, meta) (List.mem_cons_self _ _) 
      · exact ih (i + 1) (fun p hp => hinv p (List.mem_cons_of_mem _ hp)) m hm'

/-- When every input final score is 0, the total accumulated by `pass2`
equals the sum of the final scores of its output matches. -/
theorem pass2_sum (skill_weights : List ℚ)
    (pairs : List (AttributeMatch × SkillMetadata)) :
    ∀ i : ℕ, (∀ p ∈ pairs, p.1.final_score = 0) →
      ((pass2 skill_weights pairs i).1.map (fun m => m.final_score)).sum =
        (pass2 skill_weights pairs i).2 := by
  induction pairs with
  | nil => intro i _; simp [pass2]
  | cons q rest ih =>
    intro i hz
    obtain ⟨m0, meta⟩ := q
    have ihz : ∀ p ∈ rest, p.1.final_score = 0 :=
      fun p hp => hz p (List.mem_cons_of_mem _ hp)
    unfold pass2
    by_cases ht : truthy m0.matched_item
    · simp only [if_pos ht, List.map_cons, List.sum_cons]
      rw [ih (i + 1) ihz]
      ring
    · simp only [if_neg ht, List.map_cons, List.sum_cons]
      rw [ih (i + 1) ihz, hz (m0, meta) (List.mem_cons_self _ _)]
      ring

/-- When no pair has a truthy matched item, `pass2` returns the matches
unchanged and total 0. -/
theorem pass2_no_truthy (skill_weights : List ℚ)
    (pairs : List (AttributeMatch × SkillMetadata)) :
    ∀ i : ℕ, (∀ p ∈ pairs, truthy p.1.matched_item = false) →
      pass2 skill_weights pairs i = (pairs.map Prod.fst, 0) := by
  induction pairs with
  | nil => intro i _; simp [pass2]
  | cons q rest ih =>
    intro i hf
    obtain ⟨m0, meta⟩ := q
    unfold pass2
    rw [ih (i + 1) (fun p hp => hf p (List.mem_cons_of_mem _ hp))]
    simp [hf (m0, meta) (List.mem_cons_self _ _)]

/-- When every collected weighted score is 0 the average is 0. -/
theorem averageScore_zeros (ws : List ℚ) (h : ∀ w ∈ ws, w = 0) :
    averageScore ws = 0 := by
  unfold averageScore
  split_ifs with he
  · rfl
  · rw [List.sum_eq_zero h, zero_div]

/-- Reduction of `match_category` on an empty requirement list. -/
theorem match_category_empty (responses : ℕ → QueryResponse) (name category : String)
    (job : Option Job) :
    match_category [] responses name category job =
      .ok { category := category, overall_score := 0, matches' := [] } := by
  unfold match_category mkCategoryMatch
  norm_num

/-- Reduction of `match_category` once the first pass has succeeded. -/
theorem match_category_eq_of_pass1 {reqs : List JobRequirement}
    {responses : ℕ → QueryResponse} {name category : String} {job : Option Job}
    {ms : List AttributeMatch} {metas : List SkillMetadata} {ws : List ℚ}
    (hne : reqs.isEmpty = false)
    (hp : pass1 category responses reqs 0 = .ok (ms, metas, ws)) :
    match_category reqs responses name category job =
      match job with
      | some j =>
        if category = "skills" then
          mkCategoryMatch category
            (min 1 (pass2 j.calculate_skill_weights (ms.zip metas) 0).2)
            (pass2 j.calculate_skill_weights (ms.zip metas) 0).1
        else mkCategoryMatch category (averageScore ws) ms
      | none => mkCategoryMatch category (averageScore ws) ms := by
  unfold match_category
  rw [hne]
  simp only [Bool.false_eq_true, if_false]
  rw [hp]

/-- The else route of `match_category` (no job, or a non-skills category):
unpacking a successful call. -/
theorem match_category_other_ok {reqs : List JobRequirement}
    {responses : ℕ → QueryResponse} {name category : String} {job : Option Job}
    {cm : CategoryMatch} (h : match_category reqs responses name category job = .ok cm)
    (hne : reqs ≠ []) (hor : job = none ∨ category ≠ "skills") :
    ∃ ms metas ws, pass1 category responses reqs 0 = .ok (ms, metas, ws) ∧
      cm = ⟨category, averageScore ws, ms⟩ ∧
      0 ≤ cm.overall_score ∧ cm.overall_score ≤ 1 := by
  have hne' : reqs.isEmpty = false := by
    cases reqs with
    | nil => exact absurd rfl hne
    | cons a l => rfl
  unfold match_category at h
  rw [hne'] at h
  simp only [Bool.false_eq_true, if_false] at h
  cases hp : pass1 category responses reqs 0 with
  | error e => rw [hp] at h; cases h
  | ok t =>
    obtain ⟨ms, metas, ws⟩ := t
    rw [hp] at h
    dsimp only at h
    have havg : mkCategoryMatch category (averageScore ws) ms = .ok cm := by
      rcases hor with rfl | hcat
      · dsimp only at h
        exact h
      · cases job with
        | none => dsimp only at h; exact h
        | some j =>
          dsimp only at h
          rw [if_neg hcat] at h
          exact h
    obtain ⟨rfl, hb0, hb1⟩ := mkCategoryMatch_ok havg
    exact ⟨ms, metas, ws, rfl, rfl, hb0, hb1⟩

/-- The skills-with-job route of `match_category`: unpacking a successful
call. -/
theorem match_category_skills_job_ok {reqs : List JobRequirement}
    {responses : ℕ → QueryResponse} {name : String} {j : Job} {cm : CategoryMatch}
    (h : match_category reqs responses name "skills" (some j) = .ok cm)
    (hne : reqs ≠ []) :
    ∃ ms metas ws, pass1 "skills" responses reqs 0 = .ok (ms, metas, ws) ∧
      cm = ⟨"skills",
            min 1 (pass2 j.calculate_skill_weights (ms.zip metas) 0).2,
            (pass2 j.calculate_skill_weights (ms.zip metas) 0).1⟩ ∧
      0 ≤ cm.overall_score ∧ cm.overall_score ≤ 1 := by
  have hne' : reqs.isEmpty = false := by
    cases reqs with
    | nil => exact absurd rfl hne
    | cons a l => rfl
  unfold match_category at h
  rw [hne'] at h
  simp only [Bool.false_eq_true, if_false] at h
  cases hp : pass1 "skills" responses reqs 0 with
  | error e => rw [hp] at h; cases h
  | ok t =>
    obtain ⟨ms, metas, ws⟩ := t
    rw [hp] at h
    dsimp only at h
    simp only [reduceIte] at h
    obtain ⟨rfl, hb0, hb1⟩ := mkCategoryMatch_ok h
    exact ⟨ms, metas, ws, rfl, rfl, hb0, hb1⟩

/-- When the provider returns an empty result for every query, the first
pass produces the all-default no-match entries, empty metadata
dictionaries (skills only) and all-zero weighted scores. -/
theorem pass1_all_empty (category : String) (responses : ℕ → QueryResponse)
    (hresp : ∀ i, first_hit (responses i) = none) (reqs : List JobRequirement) :
    ∀ i : ℕ,
      pass1 category responses reqs i =
        .ok (reqs.map (fun req => { requirement := req.description }),
             if category = "skills" then
               List.replicate reqs.length { skill_score := none } else [],
             List.replicate reqs.length 0) := by
  induction reqs with
  | nil =>
    intro i
    by_cases hc : category = "skills" <;> simp [pass1, hc]
  | cons req rest ih =>
    intro i
    unfold pass1
    rw [step1_no_hit category req (responses i) (hresp i), ih (i + 1)]
    by_cases hc : category = "skills" <;> simp [hc, Option.elim, List.replicate_succ]

/-- Claim C1 is false on the code: `match_category` on the skills category
with `job=None` does NOT fail fast; on a non-empty requirement list it
returns an ordinary `CategoryMatch`.  Concrete run: one skills
requirement, provider finds nothing, result is a zeroed CategoryMatch. -/
theorem claim_C1_counterexample :
    match_category [pyReq] emptyProvider "alice" "skills" none =
      .ok { category := "skills", overall_score := 0,
            matches' := [{ requirement := "python" }] } := by
  simp [match_category, pass1, step1, first_hit, emptyProvider, pyReq,
    mkAttributeMatch, mkCategoryMatch, averageScore]

/-- Claim C1 amended: calling `match_category` on the skills category with
`job=None` does not raise; it silently skips the weighting step, so any
returned `CategoryMatch` has `overall_score` 0 and every one of its
matches still has `final_score` 0 and quality NO_MATCH. -/
theorem claim_C1_missing_job_silent_default (reqs : List JobRequirement)
    (responses : ℕ → QueryResponse) (name : String) (cm : CategoryMatch)
    (h : match_category reqs responses name "skills" none = .ok cm) :
    cm.overall_score = 0 ∧
    ∀ m ∈ cm.matches', m.final_score = 0 ∧ m.match_quality = .NO_MATCH := by
  by_cases hne : reqs = []
  · subst hne
    rw [match_category_empty] at h
    injection h with h
    subst h
    exact ⟨rfl, by simp⟩
  · obtain ⟨ms, metas, ws, hp, rfl, _, _⟩ :=
      match_category_other_ok h hne (Or.inl rfl)
    obtain ⟨_, _, _, h4, h5, _⟩ := pass1_invariant "skills" responses reqs 0 ms metas ws hp
    exact ⟨averageScore_zeros ws (h5 rfl), h4 rfl⟩

/-- Witness for the amended C1: the conclusion holds on the concrete
zeroed result of the counterexample run. -/
theorem claim_C1_witness :
    ({ category := "skills", overall_score := 0,
       matches' := [{ requirement := "python" }] } : CategoryMatch).overall_score = 0 ∧
    ∀ m ∈ ({ category := "skills", overall_score := 0,
             matches' := [{ requirement := "python" }] } : CategoryMatch).matches',
      m.final_score = 0 ∧ m.match_quality = .NO_MATCH :=
  claim_C1_missing_job_silent_default [pyReq] emptyProvider "alice" _
    (by simp [match_category, pass1, step1, first_hit, emptyProvider, pyReq,
          mkAttributeMatch, mkCategoryMatch, averageScore])

/-- Claim C7: if the provider returns an empty result for every
requirement, `match_category` succeeds with `overall_score = 0` and every
match has quality NO_MATCH — for the skills category with a job given, and
for every non-skills category (with or without a job). -/
theorem claim_C7_no_match_propagation (reqs : List JobRequirement)
    (responses : ℕ → QueryResponse) (name category : String) (job : Option Job)
    (hresp : ∀ i, first_hit (responses i) = none)
    (hjob : category = "skills" → ∃ j, job = some j) :
    ∃ cm, match_category reqs responses name category job = .ok cm ∧
      cm.overall_score = 0 ∧ ∀ m ∈ cm.matches', m.match_quality = .NO_MATCH := by
  by_cases hne : reqs = []
  · subst hne
    exact ⟨_, match_category_empty responses name category job, rfl, by simp⟩
  · have hne' : reqs.isEmpty = false := by
      cases reqs with
      | nil => exact absurd rfl hne
      | cons a l => rfl
    have hp := pass1_all_empty category responses hresp reqs 0
    have hkey := @match_category_eq_of_pass1 reqs responses name category job _ _ _ hne' hp
    have hmem0 : ∀ m ∈ reqs.map (fun req =>
        ({ requirement := req.description } : AttributeMatch)),
        m.matched_item = none ∧ m.final_score = 0 ∧ m.match_quality = .NO_MATCH := by
      intro m hm
      obtain ⟨req, _, rfl⟩ := List.mem_map.mp hm
      exact ⟨rfl, rfl, rfl⟩
    by_cases hc : category = "skills"
    · obtain ⟨j, rfl⟩ := hjob hc
      subst hc
      rw [hkey]
      dsimp only
      simp only [reduceIte]
      set msE := reqs.map (fun req => ({ requirement := req.description } : AttributeMatch))
        with hmsE
      have hzip : ∀ p ∈ msE.zip (List.replicate reqs.length
          ({ skill_score := none } : SkillMetadata)), truthy p.1.matched_item = false := by
        intro p hpz
        have hp1 : p.1 ∈ msE := (List.of_mem_zip hpz).1
        rw [(hmem0 p.1 hp1).1]
        rfl
      rw [pass2_no_truthy _ _ 0 hzip]
      have hfst : (msE.zip (List.replicate reqs.length
          ({ skill_score := none } : SkillMetadata))).map Prod.fst = msE := by
        apply List.map_fst_zip
        simp [hmsE]
      refine ⟨⟨"skills", min 1 0, msE⟩, ?_, ?_, ?_⟩
      · rw [hfst]
        unfold mkCategoryMatch
        norm_num
      · norm_num
      · intro m hm
        exact (hmem0 m hm).2.2
    · rw [hkey]
      have havg : averageScore (List.replicate reqs.length (0 : ℚ)) = 0 :=
        averageScore_zeros _ (fun w hw => (List.eq_of_mem_replicate hw))
      cases job with
      | some j =>
        dsimp only
        rw [if_neg hc]
        refine ⟨⟨category, averageScore (List.replicate reqs.length 0),
          reqs.map (fun req => { requirement := req.description })⟩, ?_, ?_, ?_⟩
        · unfold mkCategoryMatch
          rw [havg]
          norm_num
        · exact havg
        · intro m hm
          exact (hmem0 m hm).2.2
      | none =>
        dsimp only
        refine ⟨⟨category, averageScore (List.replicate reqs.length 0),
          reqs.map (fun req => { requirement := req.description })⟩, ?_, ?_, ?_⟩
        · unfold mkCategoryMatch
          rw [havg]
          norm_num
        · exact havg
        · intro m hm
          exact (hmem0 m hm).2.2

/-- Witness for C7: on one skills requirement with an empty provider and a
job given, the returned category result has score 0 and a NO_MATCH entry. -/
theorem claim_C7_witness :
    ∃ cm, match_category [pyReq] emptyProvider "alice" "skills" (some c4_job) = .ok cm ∧
      cm.overall_score = 0 ∧ ∀ m ∈ cm.matches', m.match_quality = .NO_MATCH :=
  claim_C7_no_match_propagation [pyReq] emptyProvider "alice" "skills" (some c4_job)
    (fun _ => rfl) (fun _ => ⟨c4_job, rfl⟩)

/-- Claim C8: every `AttributeMatch` produced by a successful
`match_category` call — any category, any provider responses, any job —
satisfies: `matched_item = none` implies `final_score = 0` and
`match_quality = NO_MATCH`. -/
theorem claim_C8_no_match_invariant (reqs : List JobRequirement)
    (responses : ℕ → QueryResponse) (name category : String) (job : Option Job)
    (cm : CategoryMatch) (h : match_category reqs responses name category job = .ok cm) :
    ∀ m ∈ cm.matches', m.matched_item = none →
      m.final_score = 0 ∧ m.match_quality = .NO_MATCH := by
  by_cases hne : reqs = []
  · subst hne
    rw [match_category_empty] at h
    injection h with h
    subst h
    simp
  · by_cases hc : category = "skills"
    · subst hc
      cases job with
      | some j =>
        obtain ⟨ms, metas, ws, hp, rfl, _, _⟩ := match_category_skills_job_ok h hne
        obtain ⟨_, _, h3, _, _, _⟩ :=
          pass1_invariant "skills" responses reqs 0 ms metas ws hp
        intro m hm
        exact pass2_preserves_none _ _ 0
          (fun p hpz => h3 p.1 (List.of_mem_zip hpz).1) m hm
      | none =>
        obtain ⟨ms, metas, ws, hp, rfl, _, _⟩ :=
          match_category_other_ok h hne (Or.inl rfl)
        obtain ⟨_, _, h3, _, _, _⟩ :=
          pass1_invariant "skills" responses reqs 0 ms metas ws hp
        exact h3
    · obtain ⟨ms, metas, ws, hp, rfl, _, _⟩ := match_category_other_ok h hne (Or.inr hc)
      obtain ⟨_, _, h3, _, _, _⟩ :=
        pass1_invariant category responses reqs 0 ms metas ws hp
      exact h3

/-- Witness for C8: the invariant holds on the concrete unmatched entry
produced by a run with an empty provider. -/
theorem claim_C8_witness :
    ({ requirement := "python" } : AttributeMatch).final_score = 0 ∧
    ({ requirement := "python" } : AttributeMatch).match_quality = .NO_MATCH :=
  claim_C8_no_match_invariant [pyReq] emptyProvider "alice" "skills" none
    { category := "skills", overall_score := 0, matches' := [{ requirement := "python" }] }
    (by simp [match_category, pass1, step1, first_hit, emptyProvider, pyReq,
          mkAttributeMatch, mkCategoryMatch, averageScore])
    { requirement := "python" } (by simp) rfl

/-- Claim C9: for the skills category with a job given, a successful
`match_category` call returns `overall_score = min 1 (Σ final scores)` — a
clamped sum over the returned matches, not an average — and the score lies
in [0,1] (out-of-range aggregates are rejected by pydantic validation
rather than returned, so every returned result is in range). -/
theorem claim_C9_skills_aggregate (reqs : List JobRequirement)
    (responses : ℕ → QueryResponse) (name : String) (j : Job) (cm : CategoryMatch)
    (h : match_category reqs responses name "skills" (some j) = .ok cm) :
    cm.overall_score = min 1 ((cm.matches'.map (fun m => m.final_score)).sum) ∧
    0 ≤ cm.overall_score ∧ cm.overall_score ≤ 1 := by
  by_cases hne : reqs = []
  · subst hne
    rw [match_category_empty] at h
    injection h with h
    subst h
    refine ⟨?_, by norm_num⟩
    show (0 : ℚ) = min 1 (([] : List AttributeMatch).map (fun m => m.final_score)).sum
    norm_num
  · obtain ⟨ms, metas, ws, hp, rfl, hb0, hb1⟩ := match_category_skills_job_ok h hne
    obtain ⟨_, _, _, h4, _, _⟩ := pass1_invariant "skills" responses reqs 0 ms metas ws hp
    have hz : ∀ p ∈ ms.zip metas, p.1.final_score = 0 :=
      fun p hpz => (h4 rfl p.1 (List.of_mem_zip hpz).1).1
    have hsum := pass2_sum j.calculate_skill_weights (ms.zip metas) 0 hz
    refine ⟨?_, hb0, hb1⟩
    show min 1 (pass2 j.calculate_skill_weights (ms.zip metas) 0).2 = _
    rw [hsum]

/-- Witness for C9: a concrete matched run returns the clamped sum 3/10
within bounds. -/
theorem claim_C9_witness :
    hitResult.overall_score =
      min 1 ((hitResult.matches'.map (fun m => m.final_score)).sum) ∧
    0 ≤ hitResult.overall_score ∧ hitResult.overall_score ≤ 1 :=
  claim_C9_skills_aggregate [pyReq] hitProvider "alice" oneSkillJob hitResult
    (by simp [match_category, pass1, step1, first_hit, first_metadata, hitProvider, pyReq,
          oneSkillJob, mkAttributeMatch, mkCategoryMatch, pass2, truthy, hitResult,
          Job.calculate_skill_weights, Job.unnormalized_skill_weights,
          calculate_weight_with_linear_core_decrease, core_weight_factor,
          skill_type_counts_of, role_factor, CORE_WEIGHT_FACTOR_MAX, EXPERIENCE_THRESHOLD,
          REQUIRED_MULTIPLIER, get_match_quality_from_score]
        norm_num)

/-- Elementwise description of `pass1`: the `i`-th produced match comes
from `step1` on the `i`-th requirement and the response to query `s + i`,
and in the skills category the `i`-th stored metadata dictionary is the
one returned by that same step. -/
theorem pass1_get (category : String) (responses : ℕ → QueryResponse)
    (reqs : List JobRequirement) :
    ∀ (s : ℕ) (ms : List AttributeMatch) (metas : List SkillMetadata) (ws : List ℚ),
      pass1 category responses reqs s = .ok (ms, metas, ws) →
      ∀ (i : ℕ) (req : JobRequirement), reqs[i]? = some req →
      ∃ m mo wo, step1 category req (responses (s + i)) = .ok (m, mo, wo) ∧
        ms[i]? = some m ∧
        (category = "skills" → ∃ meta, mo = some meta ∧ metas[i]? = some meta) := by
  induction reqs with
  | nil => intro s ms metas ws h i req hreq; simp at hreq
  | cons req0 rest ih =>
    intro s ms metas ws h i req hreq
    unfold pass1 at h
    cases hs : step1 category req0 (responses s) with
    | error e => rw [hs] at h; cases h
    | ok t =>
      obtain ⟨m0, mo0, wo0⟩ := t
      rw [hs] at h
      cases hp : pass1 category responses rest (s + 1) with
      | error e => rw [hp] at h; cases h
      | ok t2 =>
        obtain ⟨ms', metas', ws'⟩ := t2
        rw [hp] at h
        injection h with h
        simp only [Prod.mk.injEq] at h
        obtain ⟨h1, h2, h3⟩ := h
        subst h1; subst h2; subst h3
        cases i with
        | zero =>
          simp only [List.getElem?_cons_zero, Option.some.injEq] at hreq
          subst hreq
          refine ⟨m0, mo0, wo0, by simpa using hs, by simp, ?_⟩
          intro hc
          obtain ⟨_, _, meta, rfl⟩ := ((step1_shape hs).2.2.1 hc).1
          exact ⟨meta, rfl, by simp [Option.elim]⟩
        | succ n =>
          simp only [List.getElem?_cons_succ] at hreq
          obtain ⟨m, mo, wo, hstep, hmsn, hmetan⟩ := ih (s + 1) ms' metas' ws' hp n req hreq
          refine ⟨m, mo, wo, ?_, by simpa using hmsn, ?_⟩
          · have : s + 1 + n = s + (n + 1) := by omega
            rwa [this] at hstep
          · intro hc
            obtain ⟨meta, rfl, hmetai⟩ := hmetan hc
            obtain ⟨⟨_, _, meta0, rfl⟩, _⟩ := (step1_shape hs).2.2.1 hc
            exact ⟨meta, rfl, by simpa [Option.elim] using hmetai⟩

/-- Claim C10: in the skills category with a job, a match whose stored
metadata lacks a `skill_score` entry is scored with the default
proficiency 3: its final score is `(3/5) * similarity * jobSkillWeight_i`
(and its recorded proficiency is 3) rather than 0.  The matched document
is required to be non-empty, as every stored candidate skill text is
(empty skill names are rejected at model construction). -/
theorem claim_C10_default_proficiency (reqs : List JobRequirement)
    (responses : ℕ → QueryResponse) (name : String) (j : Job) (cm : CategoryMatch)
    (i : ℕ) (req : JobRequirement) (doc : String) (dist : ℚ)
    (hreq : reqs[i]? = some req)
    (hhit : first_hit (responses i) = some (doc, dist))
    (hdoc : doc ≠ "")
    (hmeta : (first_metadata (responses i)).skill_score = none)
    (h : match_category reqs responses name "skills" (some j) = .ok cm) :
    ∃ m, cm.matches'[i]? = some m ∧
      m.matched_item = some doc ∧
      m.similarity = max 0 (1 - dist) ∧
      m.proficiency_score = some 3 ∧
      m.final_score = 3/5 * m.similarity * (j.calculate_skill_weights.getD i 0) := by
  have hne : reqs ≠ [] := by
    intro hr
    subst hr
    simp at hreq
  obtain ⟨ms, metas, ws, hp, rfl, _, _⟩ := match_category_skills_job_ok h hne
  obtain ⟨m, mo, wo, hstep, hmsi, hskills⟩ :=
    pass1_get "skills" responses reqs 0 ms metas ws hp i req hreq
  obtain ⟨meta, rfl, hmetai⟩ := hskills rfl
  simp only [Nat.zero_add] at hstep
  rw [step1_hit_skills req (responses i) doc dist hhit] at hstep
  cases hm : mkAttributeMatch req.description (some doc) (max 0 (1 - dist))
      (some ((first_metadata (responses i)).skill_score.getD 3)) 0 .NO_MATCH with
  | error e => rw [hm] at hstep; cases hstep
  | ok m0 =>
    rw [hm] at hstep
    injection hstep with hstep
    simp only [Prod.mk.injEq] at hstep
    obtain ⟨h1, h2, h3⟩ := hstep
    subst h1
    have hmeta' : meta = first_metadata (responses i) :=
      (Option.some.inj h2).symm
    obtain ⟨rfl, _, _, _, _⟩ := mkAttributeMatch_ok hm
    subst hmeta'
    have hpair : (ms.zip metas)[i]? =
        some (⟨req.description, some doc, max 0 (1 - dist),
               some ((first_metadata (responses i)).skill_score.getD 3), 0, .NO_MATCH⟩,
              first_metadata (responses i)) := by
      rw [List.getElem?_zip_eq_some]
      exact ⟨hmsi, hmetai⟩
    have hout := pass2_get j.calculate_skill_weights (ms.zip metas) 0 i _ hpair
    have htr : truthy (some doc) = true := by
      simp [truthy, hdoc]
    dsimp only at hout
    rw [if_pos htr] at hout
    refine ⟨_, by simpa using hout, ?_, ?_, ?_, ?_⟩
    · rfl
    · rfl
    · simp only [pass2_update]
      rw [hmeta]
      rfl
    · simp only [pass2_update]
      rw [hmeta]
      norm_num

/-- Witness for C10: the concrete matched run with metadata lacking
`skill_score` scores `3/5 * 1/2 * 1 = 3/10` with recorded proficiency 3. -/
theorem claim_C10_witness :
    ∃ m, hitResult.matches'[0]? = some m ∧
      m.matched_item = some "py" ∧
      m.similarity = max 0 (1 - 1/2) ∧
      m.proficiency_score = some 3 ∧
      m.final_score = 3/5 * m.similarity * (oneSkillJob.calculate_skill_weights.getD 0 0) :=
  claim_C10_default_proficiency [pyReq] hitProvider "alice" oneSkillJob hitResult 0 pyReq
    "py" (1/2) (by simp) rfl (by decide) rfl
    (by simp [match_category, pass1, step1, first_hit, first_metadata, hitProvider, pyReq,
          oneSkillJob, mkAttributeMatch, mkCategoryMatch, pass2, truthy, hitResult,
          Job.calculate_skill_weights, Job.unnormalized_skill_weights,
          calculate_weight_with_linear_core_decrease, core_weight_factor,
          skill_type_counts_of, role_factor, CORE_WEIGHT_FACTOR_MAX, EXPERIENCE_THRESHOLD,
          REQUIRED_MULTIPLIER, get_match_quality_from_score]
        norm_num)

/-- `round_half_even` is between the floor and the ceiling step. -/
theorem round_half_even_bounds (q : ℚ) :
    ⌊q⌋ ≤ round_half_even q ∧ round_half_even q ≤ ⌊q⌋ + 1 := by
  unfold round_half_even
  split_ifs <;> omega

/-- `round_half_even` is monotone. -/
theorem round_half_even_mono {a b : ℚ} (hab : a ≤ b) :
    round_half_even a ≤ round_half_even b := by
  have hfl : ⌊a⌋ ≤ ⌊b⌋ := Int.floor_le_floor hab
  rcases lt_or_eq_of_le hfl with hlt | heq
  · have ha := (round_half_even_bounds a).2
    have hb := (round_half_even_bounds b).1
    omega
  · have hfa : Int.fract a = a - ⌊a⌋ := rfl
    have hfb : Int.fract b = b - ⌊b⌋ := rfl
    have hcast : ((⌊a⌋ : ℤ) : ℚ) = ((⌊b⌋ : ℤ) : ℚ) := by rw [heq]
    have hfr : Int.fract a ≤ Int.fract b := by
      rw [hfa, hfb]
      linarith
    unfold round_half_even
    split_ifs <;> first | omega | (exfalso; linarith)

/-- `python_round4` is monotone. -/
theorem python_round4_mono {a b : ℚ} (hab : a ≤ b) :
    python_round4 a ≤ python_round4 b := by
  unfold python_round4
  rw [div_le_div_iff_of_pos_right (by norm_num)]
  exact_mod_cast round_half_even_mono (by nlinarith)

/-- Claim C2 is false on the code: with one null-matched and one non-null
zero-score match, `get_top_matches_by_category` at `n = 1` returns the
empty list although one non-null match exists — the null entry occupies
the single slot of the top-n cut, and the null filter runs only after the
cut. -/
theorem claim_C2_counterexample :
    get_top_matches_by_category c2_eval "skills" 1 = [] ∧
    ∃ cr, c2_eval.category_results.find? (fun c => c.category == "skills") = some cr ∧
      (cr.matches'.filter (fun m => m.matched_item.isSome)).length = 1 := by
  constructor
  · rfl
  · exact ⟨_, rfl, rfl⟩

/-- Claim C2 amended: `get_top_matches_by_category` filters out
null-matched entries only AFTER truncating the descending-sorted match
list to `top_n`, so null entries can occupy top-n slots.  The output IS
exactly the non-null-matched entries among the `top_n` first elements of
the stably descending-sorted match list (first conjunct: the full
characterization, so every non-null match within the top-n slots appears,
in order); consequently it has at most `n` entries, is in descending
(rounded) score order, each entry is a non-null match of the category,
and it equals the full top-n exactly when every match of the category is
non-null. -/
theorem claim_C2_top_matches (ev : CandidateEvaluation) (category : String) (n : ℕ)
    (cr : CategoryMatch)
    (hfind : ev.category_results.find? (fun c => c.category == category) = some cr) :
    (get_top_matches_by_category ev category n =
      ((((cr.matches'.insertionSort
            (fun a b => b.final_score ≤ a.final_score)).take n).filter
          (fun m => m.matched_item.isSome)).map to_top_match_entry)) ∧
    (get_top_matches_by_category ev category n).length ≤ n ∧
    (get_top_matches_by_category ev category n).Pairwise
      (fun e1 e2 => e2.score ≤ e1.score) ∧
    (∀ e ∈ get_top_matches_by_category ev category n,
      ∃ m ∈ cr.matches', m.matched_item.isSome ∧ e = to_top_match_entry m) ∧
    ((∀ m ∈ cr.matches', m.matched_item.isSome) →
      get_top_matches_by_category ev category n =
        ((cr.matches'.insertionSort
            (fun a b => b.final_score ≤ a.final_score)).take n).map to_top_match_entry) := by
  have hkey : get_top_matches_by_category ev category n =
      ((((cr.matches'.insertionSort
            (fun a b => b.final_score ≤ a.final_score)).take n).filter
          (fun m => m.matched_item.isSome)).map to_top_match_entry) := by
    unfold get_top_matches_by_category
    rw [hfind]
  haveI : IsTotal AttributeMatch (fun a b => b.final_score ≤ a.final_score) :=
    ⟨fun a b => (le_total b.final_score a.final_score)⟩
  haveI : IsTrans AttributeMatch (fun a b => b.final_score ≤ a.final_score) :=
    ⟨fun _ _ _ hab hbc => le_trans hbc hab⟩
  have hsorted : (cr.matches'.insertionSort
      (fun a b => b.final_score ≤ a.final_score)).Sorted
      (fun a b => b.final_score ≤ a.final_score) :=
    List.sorted_insertionSort _ _
  have hperm := List.perm_insertionSort
    (fun a b => b.final_score ≤ a.final_score) cr.matches'
  have hsub : ((cr.matches'.insertionSort
      (fun a b => b.final_score ≤ a.final_score)).take n).Sublist
      (cr.matches'.insertionSort (fun a b => b.final_score ≤ a.final_score)) :=
    List.take_sublist n _
  refine ⟨hkey, ?_, ?_, ?_, ?_⟩
  · rw [hkey, List.length_map]
    calc (((cr.matches'.insertionSort (fun a b => b.final_score ≤ a.final_score)).take
          n).filter (fun m => m.matched_item.isSome)).length
        ≤ ((cr.matches'.insertionSort
            (fun a b => b.final_score ≤ a.final_score)).take n).length :=
          List.length_filter_le _ _
      _ ≤ n := by
          rw [List.length_take]
          omega
  · rw [hkey]
    rw [List.pairwise_map]
    have hp1 : ((cr.matches'.insertionSort
        (fun a b => b.final_score ≤ a.final_score)).take n).Pairwise
        (fun a b => b.final_score ≤ a.final_score) :=
      List.Pairwise.sublist hsub hsorted
    have hp2 : (((cr.matches'.insertionSort
        (fun a b => b.final_score ≤ a.final_score)).take n).filter
        (fun m => m.matched_item.isSome)).Pairwise
        (fun a b => b.final_score ≤ a.final_score) :=
      List.Pairwise.sublist (List.filter_sublist _) hp1
    exact hp2.imp (fun hle => python_round4_mono hle)
  · rw [hkey]
    intro e he
    obtain ⟨m, hm, rfl⟩ := List.mem_map.mp he
    have hmf := List.mem_filter.mp hm
    refine ⟨m, ?_, by simpa using hmf.2, rfl⟩
    exact hperm.mem_iff.mp (hsub.mem hmf.1)
  · intro hall
    rw [hkey]
    congr 1
    apply List.filter_eq_self.mpr
    intro m hm
    have : m ∈ cr.matches' := hperm.mem_iff.mp (hsub.mem hm)
    simpa using hall m this

/-- Witness for the amended C2: its conclusions on the concrete
counterexample evaluation. -/
theorem claim_C2_witness :
    (get_top_matches_by_category c2_eval "skills" 1 =
      ((((({ category := "skills", overall_score := 0,
             matches' := [{ requirement := "r1" },
                          { requirement := "r2", matched_item := some "X" }] } :
            CategoryMatch).matches'.insertionSort
            (fun a b => b.final_score ≤ a.final_score)).take 1).filter
          (fun m => m.matched_item.isSome)).map to_top_match_entry)) ∧
    (get_top_matches_by_category c2_eval "skills" 1).length ≤ 1 ∧
    (get_top_matches_by_category c2_eval "skills" 1).Pairwise
      (fun e1 e2 => e2.score ≤ e1.score) ∧
    (∀ e ∈ get_top_matches_by_category c2_eval "skills" 1,
      ∃ m ∈ ({ category := "skills", overall_score := 0,
               matches' := [{ requirement := "r1" },
                            { requirement := "r2", matched_item := some "X" }] } :
          CategoryMatch).matches', m.matched_item.isSome ∧ e = to_top_match_entry m) ∧
    ((∀ m ∈ ({ category := "skills", overall_score := 0,
               matches' := [{ requirement := "r1" },
                            { requirement := "r2", matched_item := some "X" }] } :
          CategoryMatch).matches', m.matched_item.isSome) →
      get_top_matches_by_category c2_eval "skills" 1 =
        ((({ category := "skills", overall_score := 0,
             matches' := [{ requirement := "r1" },
                          { requirement := "r2", matched_item := some "X" }] } :
            CategoryMatch).matches'.insertionSort
            (fun a b => b.final_score ≤ a.final_score)).take 1).map to_top_match_entry) :=
  claim_C2_top_matches c2_eval "skills" 1 _ rfl

/-- Stability of the descending insertion sort, expressed through filters:
the elements with any fixed key value keep their input order. -/
theorem insertionSort_filter_key {α : Type} (key : α → ℚ) (s : ℚ) (l : List α) :
    ((l.insertionSort (fun a b => key b ≤ key a)).filter (fun x => key x == s)) =
      l.filter (fun x => key x == s) := by
  induction l with
  | nil => rfl
  | cons a l ih =>
    show ((l.insertionSort (fun a b => key b ≤ key a)).orderedInsert
        (fun a b => key b ≤ key a) a).filter (fun x => key x == s) = _
    rw [List.orderedInsert_eq_take_drop]
    rw [List.filter_append]
    by_cases hka : key a = s
    · have htake : (((l.insertionSort (fun a b => key b ≤ key a)).takeWhile
          (fun b => ¬ key b ≤ key a)).filter (fun x => key x == s)) = [] := by
        apply List.filter_eq_nil_iff.mpr
        intro b hb
        have hkb := List.mem_takeWhile_imp hb
        simp only [decide_eq_true_eq] at hkb
        simp only [beq_iff_eq]
        intro hbs
        exact hkb (by rw [hbs, hka])
      rw [htake]
      have hfa : (a :: ((l.insertionSort (fun a b => key b ≤ key a)).dropWhile
          (fun b => ¬ key b ≤ key a))).filter (fun x => key x == s) =
          a :: (((l.insertionSort (fun a b => key b ≤ key a)).dropWhile
            (fun b => ¬ key b ≤ key a)).filter (fun x => key x == s)) := by
        rw [List.filter_cons]
        simp [hka]
      rw [hfa]
      have hsplit : (((l.insertionSort (fun a b => key b ≤ key a)).takeWhile
            (fun b => ¬ key b ≤ key a)).filter (fun x => key x == s)) ++
          (((l.insertionSort (fun a b => key b ≤ key a)).dropWhile
            (fun b => ¬ key b ≤ key a)).filter (fun x => key x == s)) =
          ((l.insertionSort (fun a b => key b ≤ key a)).filter (fun x => key x == s)) := by
        rw [← List.filter_append, List.takeWhile_append_dropWhile]
      rw [List.filter_cons_of_pos (by simp [hka]), ← ih, ← hsplit, htake]
      simp
    · rw [List.filter_cons_of_neg (by simp [hka])]
      rw [List.filter_cons_of_neg (by simp [hka]), ← ih]
      rw [← List.filter_append, List.takeWhile_append_dropWhile]

/-- Claim C6: a successful `evaluate_candidates` returns the per-candidate
evaluations sorted descending by `overall_score`, and the sort is stable:
any two evaluations with equal score keep the relative order their
candidates had in the input list (the output restricted to any fixed
score equals the raw evaluation list restricted to that score). -/
theorem claim_C6_ranking_stability (responses : String → String → ℕ → QueryResponse)
    (job : Job) (names : List String) (evs : List CandidateEvaluation)
    (h : evaluate_candidates responses job names = .ok evs) :
    evs.Sorted (fun a b => b.overall_score ≤ a.overall_score) ∧
    ∀ raw, names.mapM (evaluate_candidate responses job) = .ok raw →
      (evs.Perm raw ∧
       ∀ s : ℚ, evs.filter (fun e => e.overall_score == s) =
         raw.filter (fun e => e.overall_score == s)) := by
  haveI : IsTotal CandidateEvaluation (fun a b => b.overall_score ≤ a.overall_score) :=
    ⟨fun a b => le_total b.overall_score a.overall_score⟩
  haveI : IsTrans CandidateEvaluation (fun a b => b.overall_score ≤ a.overall_score) :=
    ⟨fun _ _ _ hab hbc => le_trans hbc hab⟩
  unfold evaluate_candidates at h
  cases hm : names.mapM (evaluate_candidate responses job) with
  | error e => rw [hm] at h; cases h
  | ok evaluations =>
    rw [hm] at h
    injection h with h
    subst h
    refine ⟨List.sorted_insertionSort _ _, ?_⟩
    intro raw hraw
    injection hraw with hraw
    subst hraw
    exact ⟨List.perm_insertionSort _ _,
      fun s => insertionSort_filter_key (fun e => e.overall_score) s evaluations⟩

/-- Witness for C6: two equal-score candidates come back in input order,
sorted. -/
theorem claim_C6_witness :
    ([{ candidate_name := "a", job_title := "j0", overall_score := 0,
        category_results := [] },
      { candidate_name := "b", job_title := "j0", overall_score := 0,
        category_results := [] }] : List CandidateEvaluation).Sorted
      (fun a b => b.overall_score ≤ a.overall_score) ∧
    ∀ raw, ["a", "b"].mapM (evaluate_candidate trivialProvider emptyJob) = .ok raw →
      (([{ candidate_name := "a", job_title := "j0", overall_score := 0,
           category_results := [] },
         { candidate_name := "b", job_title := "j0", overall_score := 0,
           category_results := [] }] : List CandidateEvaluation).Perm raw ∧
       ∀ s : ℚ,
         ([{ candidate_name := "a", job_title := "j0", overall_score := 0,
             category_results := [] },
           { candidate_name := "b", job_title := "j0", overall_score := 0,
             category_results := [] }] : List CandidateEvaluation).filter
           (fun e => e.overall_score == s) =
         raw.filter (fun e => e.overall_score == s)) :=
  claim_C6_ranking_stability trivialProvider emptyJob ["a", "b"] _ rfl

end ResumeRanker
